import Mathlib

/-!
Shallow embedding of the report-management core of the backend-api-challenge
repository: the status-transition validator (`src/services` reportValidator),
the report mutation protocol (`src/controllers/reportController.ts`), the
file-upload path, and the asynchronous task queue
(`src/services/asyncTaskQueue.ts`), together with theorems settling the
specification claims about them.
-/

/-- `ReportStatus` from `src/models/Report.ts`: `draft | published | archived`. -/
inductive ReportStatus where
  | draft
  | published
  | archived
deriving DecidableEq, Repr, BEq

/-- `Priority` from `src/models/Report.ts`: `low | medium | high`. -/
inductive Priority where
  | low
  | medium
  | high
deriving DecidableEq, Repr, BEq

/-- `Comment` from `src/models/Report.ts`. Timestamps are modelled as `Nat`. -/
structure Comment where
  id : String
  text : String
  author : String
  createdAt : Nat
deriving DecidableEq, Repr

/-- `ReportEntry` from `src/models/Report.ts`. -/
structure ReportEntry where
  id : String
  content : String
  priority : Priority
  createdAt : Nat
  updatedAt : Nat
  tags : List String
  comments : List Comment
deriving DecidableEq, Repr

/-- Confidentiality levels of `ReportMetadata` in `src/models/Report.ts`:
`'public' | 'internal' | 'confidential'`. -/
inductive ConfidentialityLevel where
  | publicLevel
  | internalLevel
  | confidentialLevel
deriving DecidableEq, Repr

/-- `ReportMetadata` from `src/models/Report.ts`. -/
structure ReportMetadata where
  department : String
  confidentialityLevel : ConfidentialityLevel
  estimatedReadTime : Nat
  lastReviewedBy : Option String
  lastReviewedAt : Option Nat
deriving DecidableEq, Repr

/-- `Report` from `src/models/Report.ts`. `version` is the optimistic-locking
counter; `attachments` holds attachment identifiers. -/
structure Report where
  id : String
  title : String
  description : String
  status : ReportStatus
  createdBy : String
  createdAt : Nat
  updatedAt : Nat
  version : Nat
  entries : List ReportEntry
  metadata : ReportMetadata
  attachments : List String
deriving DecidableEq, Repr

/-- `ValidationResult` returned by the report validator
(`valid`, optional `error` message, optional `code`). -/
structure ValidationResult where
  valid : Bool
  error : Option String
  code : Option String
deriving DecidableEq, Repr

/-- The error message built by `validateArchiveTransition` for an
insufficient high-priority entry count. -/
def archiveErrorMessage (highPriorityCount : Nat) : String :=
  "Cannot archive published report: requires at least 3 high-priority entries (currently has "
    ++ toString highPriorityCount ++ ")"

/-- The count computed by `validateArchiveTransition`:
`report.entries.filter(entry => entry.priority === Priority.HIGH).length`. -/
def highPriorityCount (entries : List ReportEntry) : Nat :=
  (entries.filter (fun entry => entry.priority == Priority.high)).length

/-- `ReportValidator.validateArchiveTransition`: a published report needs at
least 3 high-priority entries before it can be archived. -/
def validateArchiveTransition (report : Report) (newStatus : ReportStatus) :
    ValidationResult :=
  if newStatus ≠ ReportStatus.archived then
    ⟨true, none, none⟩
  else if report.status = ReportStatus.published then
    if highPriorityCount report.entries < 3 then
      ⟨false, some (archiveErrorMessage (highPriorityCount report.entries)),
        some "INSUFFICIENT_HIGH_PRIORITY_ENTRIES"⟩
    else
      ⟨true, none, none⟩
  else
    ⟨true, none, none⟩

/-- `ReportValidator.validatePublishTransition`: a report with no entries
cannot be published. -/
def validatePublishTransition (report : Report) (newStatus : ReportStatus) :
    ValidationResult :=
  if newStatus ≠ ReportStatus.published then
    ⟨true, none, none⟩
  else if report.entries.length = 0 then
    ⟨false, some "Cannot publish report: must have at least one entry",
      some "NO_ENTRIES"⟩
  else
    ⟨true, none, none⟩

/-- `ReportValidator.validateStatusTransition`: archive rule first, then the
publish rule; first failure wins. -/
def validateStatusTransition (report : Report) (newStatus : ReportStatus) :
    ValidationResult :=
  let archiveResult := validateArchiveTransition report newStatus
  if !archiveResult.valid then
    archiveResult
  else
    let publishResult := validatePublishTransition report newStatus
    if !publishResult.valid then
      publishResult
    else
      ⟨true, none, none⟩

example :
    (validateStatusTransition
      ⟨"r", "t", "d", ReportStatus.published, "u", 0, 0, 1, [],
        ⟨"General", ConfidentialityLevel.internalLevel, 0, none, none⟩, []⟩
      ReportStatus.archived).code =
    some "INSUFFICIENT_HIGH_PRIORITY_ENTRIES" := by decide

/-- The `reports` map of the `DataStore` class (the second document inside
`src/src/middleware/auth.ts`, the staged `src/storage/DataStore.ts`):
`private reports: Map<string, Report>`, embedded as an association list in
insertion order with keys kept unique by `setReport` below, exactly as a JS
`Map` keeps them. The callers ignore the `Report | undefined` return values of
`createReport`/`updateReport`, so the embedding returns the new store alone. -/
abbrev EntityStore := List (String × Report)

/-- `Map.prototype.has` on the `reports` map, used by `DataStore.updateReport`. -/
def EntityStore.hasReport (store : EntityStore) (id : String) : Bool :=
  match store with
  | [] => false
  | (k, _) :: rest => if k = id then true else EntityStore.hasReport rest id

/-- `Map.prototype.set` on the `reports` map: replace the entry in place when
the key is present, append a new entry otherwise (JS `Map` insertion order). -/
def EntityStore.setReport (store : EntityStore) (id : String) (report : Report) :
    EntityStore :=
  match store with
  | [] => [(id, report)]
  | (k, r) :: rest =>
    if k = id then (k, report) :: rest
    else (k, r) :: EntityStore.setReport rest id report

/-- `DataStore.getReport` (auth.ts second document, lines 92-94):
`this.reports.get(id)`. -/
def EntityStore.getReport (store : EntityStore) (id : String) : Option Report :=
  match store with
  | [] => none
  | (k, r) :: rest => if k = id then some r else EntityStore.getReport rest id

/-- `DataStore.updateReport` (auth.ts second document, lines 96-102): when
`!this.reports.has(id)` the store is untouched (the method returns
`undefined`), otherwise `this.reports.set(id, report)`. -/
def EntityStore.updateReport (store : EntityStore) (id : String) (report : Report) :
    EntityStore :=
  if store.hasReport id then store.setReport id report else store

/-- `DataStore.createReport` (auth.ts second document, lines 87-90):
`this.reports.set(report.id, report)`. -/
def EntityStore.createReport (store : EntityStore) (report : Report) : EntityStore :=
  store.setReport report.id report

/-- Patch carried by the `metadata` field of an update request body; the JS
spread `\x7b ...existingReport.metadata, ...metadata \x7d` overrides exactly the
fields present in the patch. -/
structure ReportMetadataPatch where
  department : Option String
  confidentialityLevel : Option ConfidentialityLevel
  estimatedReadTime : Option Nat
  lastReviewedBy : Option (Option String)
  lastReviewedAt : Option (Option Nat)
deriving DecidableEq, Repr

/-- Field-by-field merge performed by the JS object spread in `updateReport`. -/
def mergeMetadata (old : ReportMetadata) (patch : ReportMetadataPatch) :
    ReportMetadata where
  department := patch.department.getD old.department
  confidentialityLevel := patch.confidentialityLevel.getD old.confidentialityLevel
  estimatedReadTime := patch.estimatedReadTime.getD old.estimatedReadTime
  lastReviewedBy := patch.lastReviewedBy.getD old.lastReviewedBy
  lastReviewedAt := patch.lastReviewedAt.getD old.lastReviewedAt

/-- Request body of `PUT /reports/:id` as destructured in
`reportController.updateReport`: every field optional, `version` mandatory for
the protocol but possibly absent from the request. -/
structure UpdateBody where
  title : Option String
  description : Option String
  status : Option ReportStatus
  metadata : Option ReportMetadataPatch
  entries : Option (List ReportEntry)
  version : Option Nat
deriving DecidableEq, Repr

/-- Outcome of `reportController.updateReport`, one constructor per response
branch of the controller (HTTP 400 validation, 404, 409 with both versions,
400 business-rule violation with code/message/current/attempted status, and
the 200 with the updated report). -/
inductive UpdateOutcome where
  | validationError (message : String)
  | notFound
  | conflict (currentVersion : Nat) (providedVersion : Nat)
  | businessRuleViolation (code : String) (message : Option String)
      (currentStatus : ReportStatus) (attemptedStatus : ReportStatus)
  | ok (report : Report)
deriving DecidableEq, Repr

/-- The `updatedReport` record built by `reportController.updateReport`:
fields present in the body overwrite, absent fields retain prior values,
`metadata` merges field-by-field, `updatedAt` is refreshed and `version` is
incremented by exactly 1. -/
def applyPatch (existingReport : Report) (body : UpdateBody) (now : Nat) : Report :=
  { existingReport with
    title := body.title.getD existingReport.title
    description := body.description.getD existingReport.description
    status := body.status.getD existingReport.status
    metadata :=
      match body.metadata with
      | some patch => mergeMetadata existingReport.metadata patch
      | none => existingReport.metadata
    entries := body.entries.getD existingReport.entries
    updatedAt := now
    version := existingReport.version + 1 }

/-- `reportController.updateReport` from
`src/controllers/reportController.ts`: the report mutation protocol.
`now` stands for `new Date()`. Returns the response outcome together with the
entity store after the call. -/
def updateReport (store : EntityStore) (id : String) (body : UpdateBody)
    (now : Nat) : UpdateOutcome × EntityStore :=
  match body.version with
  | none =>
    (UpdateOutcome.validationError "Version number is required for optimistic locking",
      store)
  | some version =>
    match store.getReport id with
    | none => (UpdateOutcome.notFound, store)
    | some existingReport =>
      if existingReport.version ≠ version then
        (UpdateOutcome.conflict existingReport.version version, store)
      else
        let proceed : UpdateOutcome × EntityStore :=
          let updatedReport : Report := applyPatch existingReport body now
          (UpdateOutcome.ok updatedReport, store.updateReport id updatedReport)
        match body.status with
        | some requestedStatus =>
          if requestedStatus ≠ existingReport.status then
            let reportForValidation : Report :=
              { existingReport with
                entries := body.entries.getD existingReport.entries }
            let validationResult :=
              validateStatusTransition reportForValidation requestedStatus
            if !validationResult.valid then
              (UpdateOutcome.businessRuleViolation
                (validationResult.code.getD "BUSINESS_RULE_VIOLATION")
                validationResult.error
                existingReport.status requestedStatus, store)
            else proceed
          else proceed
        | none => proceed

/-- `FileStorageService.allowedMimeTypes` from `src/services/fileStorage.ts`. -/
def allowedMimeTypes : List String :=
  ["application/pdf",
   "image/jpeg",
   "image/jpg",
   "image/png",
   "image/gif",
   "application/msword",
   "application/vnd.openxmlformats-officedocument.wordprocessingml.document",
   "application/vnd.ms-excel",
   "application/vnd.openxmlformats-officedocument.spreadsheetml.sheet",
   "text/plain",
   "text/csv"]

/-- `FileStorageService.validateFileType`. -/
def validateFileType (mimeType : String) : Bool :=
  allowedMimeTypes.contains mimeType

/-- `FileStorageService.validateFileSize`: at most 5MB. -/
def validateFileSize (size : Nat) : Bool :=
  size ≤ 5 * 1024 * 1024

/-- The multer file object fields used by `uploadAttachment`. -/
structure UploadedFile where
  originalname : String
  size : Nat
  mimetype : String
deriving DecidableEq, Repr

/-- Outcome of `reportController.uploadAttachment`, one constructor per
response branch (400 NO_FILE, 404, 400 INVALID_FILE_TYPE, 400 FILE_TOO_LARGE,
201 with the attachment id and the persisted report state). -/
inductive UploadOutcome where
  | noFile
  | notFound
  | invalidFileType (mimeType : String)
  | fileTooLarge (size : Nat)
  | created (attachmentId : String) (report : Report)
deriving DecidableEq, Repr

/-- The mutation `uploadAttachment` applies to the stored report:
`report.attachments.push(metadata.id)` and `report.updatedAt = new Date()` —
note that `version` is left untouched. -/
def attachReport (report : Report) (fileId : String) (now : Nat) : Report :=
  { report with
    attachments := report.attachments ++ [fileId]
    updatedAt := now }

/-- `reportController.uploadAttachment` from
`src/controllers/reportController.ts`. The uuid generated by
`fileStorageService.storeFile` is abstracted as the `fileId` argument and the
stored file buffer is irrelevant to report state; the controller pushes the
new attachment id, refreshes `updatedAt`, and persists the report without
touching `version`. -/
def uploadAttachment (store : EntityStore) (id : String)
    (file : Option UploadedFile) (fileId : String) (now : Nat) :
    UploadOutcome × EntityStore :=
  match file with
  | none => (UploadOutcome.noFile, store)
  | some f =>
    match store.getReport id with
    | none => (UploadOutcome.notFound, store)
    | some report =>
      if !validateFileType f.mimetype then
        (UploadOutcome.invalidFileType f.mimetype, store)
      else if !validateFileSize f.size then
        (UploadOutcome.fileTooLarge f.size, store)
      else
        let updated : Report := attachReport report fileId now
        (UploadOutcome.created fileId updated, store.updateReport id updated)

namespace AsyncTaskQueue

/-- `TaskType` from `src/services/asyncTaskQueue.ts`. -/
inductive TaskType where
  | SEND_NOTIFICATION
  | INVALIDATE_CACHE
  | GENERATE_PREVIEW
deriving DecidableEq, Repr

/-- `TaskStatus` from `src/services/asyncTaskQueue.ts`. -/
inductive TaskStatus where
  | PENDING
  | PROCESSING
  | COMPLETED
  | FAILED
  | DEAD_LETTER
deriving DecidableEq, Repr

/-- The three payload shapes built by `reportController.createReport`
(notification, cache invalidation, preview generation), as a tagged union. -/
inductive TaskPayload where
  | notification (reportId : String) (reportTitle : String) (createdBy : String)
      (recipients : List String)
  | cache (cacheKey : String) (reportId : String)
  | preview (reportId : String) (title : String)
deriving DecidableEq, Repr

/-- `Task` from `src/services/asyncTaskQueue.ts`. -/
structure Task where
  id : String
  type : TaskType
  payload : TaskPayload
  status : TaskStatus
  attempts : Nat
  maxAttempts : Nat
  createdAt : Nat
  processedAt : Option Nat
  error : Option String
deriving DecidableEq, Repr

/-- State of the `AsyncTaskQueue` singleton: the pending `queue`, the
`deadLetterQueue`, the `processing` flag, and the pending `setTimeout`
reinsertion callbacks scheduled by the retry branch, each carrying its delay
in milliseconds and the task to unshift when it fires. -/
structure QueueState where
  queue : List Task
  deadLetterQueue : List Task
  processing : Bool
  timers : List (Nat × Task)
deriving DecidableEq, Repr

/-- `AsyncTaskQueue.getStatus` observability record. -/
structure QueueStatus where
  queueLength : Nat
  processing : Bool
  deadLetterQueueLength : Nat
deriving DecidableEq, Repr

/-- `AsyncTaskQueue.getStatus`. -/
def getStatus (st : QueueState) : QueueStatus :=
  ⟨st.queue.length, st.processing, st.deadLetterQueue.length⟩

/-- `AsyncTaskQueue.getDeadLetterQueue`. -/
def getDeadLetterQueue (st : QueueState) : List Task :=
  st.deadLetterQueue

/-- `AsyncTaskQueue.enqueue`: push the task at the back of the pending queue
(processing is kicked off separately by `processOne`). -/
def enqueue (st : QueueState) (task : Task) : QueueState :=
  { st with queue := st.queue ++ [task] }

/-- One invocation of `AsyncTaskQueue.processQueue` on the head task, i.e. one
attempt. The handlers (`sendNotification` etc.) stand for unreliable external
calls, so the attempt's outcome is the oracle `fails` with error description
`errMsg`; `now` stands for `new Date()`. On success the task is marked
`COMPLETED` and dropped from every engine collection; on failure the attempt
counter is incremented and the error recorded, then the task is either
dead-lettered (attempts ≥ maxAttempts) or marked `FAILED` with a reinsertion
timer scheduled after `2^attempts * 1000` milliseconds. An empty queue only
clears the `processing` flag. -/
def processOne (st : QueueState) (now : Nat) (fails : Bool) (errMsg : String) :
    QueueState :=
  match st.queue with
  | [] => { st with processing := false }
  | task :: rest =>
    if !fails then
      let _completed : Task :=
        { task with status := TaskStatus.COMPLETED, processedAt := some now }
      { st with queue := rest, processing := true }
    else
      let failedTask : Task :=
        { task with attempts := task.attempts + 1, error := some errMsg }
      if failedTask.maxAttempts ≤ failedTask.attempts then
        { st with
          queue := rest
          processing := true
          deadLetterQueue :=
            st.deadLetterQueue ++ [{ failedTask with status := TaskStatus.DEAD_LETTER }] }
      else
        let retryTask : Task := { failedTask with status := TaskStatus.FAILED }
        let backoffDelay : Nat := 2 ^ failedTask.attempts * 1000
        { st with
          queue := rest
          processing := true
          timers := st.timers ++ [(backoffDelay, retryTask)] }

/-- Elapse of all scheduled reinsertion timers: each fired callback runs
`this.queue.unshift(task)`, putting its task at the head of the pending
sequence. -/
def fireTimers (st : QueueState) : QueueState :=
  { st with
    queue := st.timers.foldr (fun timer q => timer.2 :: q) st.queue
    timers := [] }

/-- One round of the engine against a handler that fails: one `processQueue`
attempt followed by the elapse of any backoff timer it scheduled. -/
def failRound (now : Nat) (errMsg : String) (st : QueueState) : QueueState :=
  fireTimers (processOne st now true errMsg)

end AsyncTaskQueue

/-- Request body of `POST /reports` as destructured in
`reportController.createReport`; `title`/`description` may be absent and the
JS truthiness check also rejects empty strings. -/
structure CreateBody where
  title : Option String
  description : Option String
  metadata : Option ReportMetadata
deriving DecidableEq, Repr

/-- JS falsiness of an optional string field: absent or empty. -/
def isFalsyString (s : Option String) : Bool :=
  match s with
  | none => true
  | some str => str == ""

/-- Outcome of `reportController.createReport` (400 validation error or 201
with the new report). -/
inductive CreateOutcome where
  | validationError
  | created (report : Report)
deriving DecidableEq, Repr

/-- `reportController.createReport` from
`src/controllers/reportController.ts`: validates title/description, stores the
new report (id `newId` standing for the generated uuid, owner `userId`,
version 1, status draft, no entries, no attachments), then enqueues the
notification, cache-invalidation and preview-generation tasks on the queue
singleton. Returns the response outcome, the store and the queue state after
the call. -/
def createReport (store : EntityStore) (qs : AsyncTaskQueue.QueueState)
    (body : CreateBody) (newId : String) (userId : String) (username : String)
    (now : Nat) : CreateOutcome × EntityStore × AsyncTaskQueue.QueueState :=
  if isFalsyString body.title || isFalsyString body.description then
    (CreateOutcome.validationError, store, qs)
  else
    let newReport : Report :=
      { id := newId
        title := (body.title.getD "")
        description := (body.description.getD "")
        status := ReportStatus.draft
        createdBy := userId
        createdAt := now
        updatedAt := now
        version := 1
        entries := []
        metadata := body.metadata.getD
          ⟨"General", ConfidentialityLevel.internalLevel, 0, none, none⟩
        attachments := [] }
    let store1 := store.createReport newReport
    let qs1 := AsyncTaskQueue.enqueue qs
      { id := newId ++ "-notification"
        type := AsyncTaskQueue.TaskType.SEND_NOTIFICATION
        payload := AsyncTaskQueue.TaskPayload.notification newReport.id
          newReport.title username ["manager@company.com", "team@company.com"]
        status := AsyncTaskQueue.TaskStatus.PENDING
        attempts := 0
        maxAttempts := 3
        createdAt := now
        processedAt := none
        error := none }
    let qs2 := AsyncTaskQueue.enqueue qs1
      { id := newId ++ "-cache"
        type := AsyncTaskQueue.TaskType.INVALIDATE_CACHE
        payload := AsyncTaskQueue.TaskPayload.cache
          ("reports:" ++ newReport.metadata.department) newReport.id
        status := AsyncTaskQueue.TaskStatus.PENDING
        attempts := 0
        maxAttempts := 2
        createdAt := now
        processedAt := none
        error := none }
    let qs3 := AsyncTaskQueue.enqueue qs2
      { id := newId ++ "-preview"
        type := AsyncTaskQueue.TaskType.GENERATE_PREVIEW
        payload := AsyncTaskQueue.TaskPayload.preview newReport.id newReport.title
        status := AsyncTaskQueue.TaskStatus.PENDING
        attempts := 0
        maxAttempts := 3
        createdAt := now
        processedAt := none
        error := none }
    (CreateOutcome.created newReport, store1, qs3)

lemma validateArchiveTransition_valid_eq (report : Report) (newStatus : ReportStatus)
    (h : (validateArchiveTransition report newStatus).valid = true) :
    validateArchiveTransition report newStatus = ⟨true, none, none⟩ := by
  unfold validateArchiveTransition at h ⊢
  by_cases h1 : newStatus ≠ ReportStatus.archived
  · simp [h1]
  · by_cases h2 : report.status = ReportStatus.published
    · by_cases h3 : highPriorityCount report.entries < 3
      · simp [h1, h2, h3] at h
      · simp [h1, h2, h3]
    · simp [h1, h2]

lemma validatePublishTransition_valid_eq (report : Report) (newStatus : ReportStatus)
    (h : (validatePublishTransition report newStatus).valid = true) :
    validatePublishTransition report newStatus = ⟨true, none, none⟩ := by
  unfold validatePublishTransition at h ⊢
  by_cases h1 : newStatus ≠ ReportStatus.published
  · simp [h1]
  · by_cases h2 : report.entries.length = 0
    · simp [h1, h2] at h
    · simp [h1, h2]

/-- Claim C10: for every report, the status-transition validator accepts a
transition to `draft`: neither the archive rule nor the publish rule applies
when the requested status is `draft`, whatever the current status, entry count
or entry priorities. -/
theorem claim_C10_draft_always_valid (report : Report) :
    validateStatusTransition report ReportStatus.draft = ⟨true, none, none⟩ := by
  simp [validateStatusTransition, validateArchiveTransition, validatePublishTransition]

/-- Claim C7: the status-transition validator evaluates the archive rule
before the publish rule, first failure winning; an update requesting status
`published` with an empty candidate entries sequence fails with kind
`NO_ENTRIES`, and a candidate sequence with one or more entries always passes
the publish rule. -/
theorem claim_C7_publish_rule_and_order :
    (∀ (report : Report) (newStatus : ReportStatus),
      validateStatusTransition report newStatus =
        if (validateArchiveTransition report newStatus).valid = true then
          validatePublishTransition report newStatus
        else
          validateArchiveTransition report newStatus) ∧
    (∀ report : Report, report.entries = [] →
      validateStatusTransition report ReportStatus.published =
        ⟨false, some "Cannot publish report: must have at least one entry",
          some "NO_ENTRIES"⟩) ∧
    (∀ report : Report, report.entries ≠ [] →
      (validatePublishTransition report ReportStatus.published).valid = true) := by
  refine ⟨?_, ?_, ?_⟩
  · intro report newStatus
    unfold validateStatusTransition
    by_cases ha : (validateArchiveTransition report newStatus).valid = true
    · by_cases hp : (validatePublishTransition report newStatus).valid = true
      · simp [ha, hp, validatePublishTransition_valid_eq report newStatus hp]
      · simp [ha, hp]
    · simp [ha]
  · intro report h
    simp [validateStatusTransition, validateArchiveTransition,
      validatePublishTransition, h]
  · intro report h
    simp [validatePublishTransition, h]

/-- A shared concrete metadata record for witnesses. -/
def sampleMetadata : ReportMetadata :=
  ⟨"General", ConfidentialityLevel.internalLevel, 0, none, none⟩

/-- A shared concrete entry for witnesses. -/
def sampleEntry (id : String) (priority : Priority) : ReportEntry :=
  ⟨id, "text", priority, 0, 0, [], []⟩

/-- A shared concrete report for witnesses. -/
def sampleReport (status : ReportStatus) (entries : List ReportEntry) : Report :=
  ⟨"r1", "Title", "Desc", status, "u1", 0, 0, 1, entries, sampleMetadata, []⟩

/-- Witness for claim C7 at concrete reports: a draft report with no entries
is refused publication with `NO_ENTRIES`, and one with one low-priority entry
passes the publish rule. -/
theorem claim_C7_witness :
    validateStatusTransition (sampleReport ReportStatus.draft [])
        ReportStatus.published =
      ⟨false, some "Cannot publish report: must have at least one entry",
        some "NO_ENTRIES"⟩ ∧
    (validatePublishTransition
        (sampleReport ReportStatus.draft [sampleEntry "e1" Priority.low])
        ReportStatus.published).valid = true :=
  ⟨claim_C7_publish_rule_and_order.2.1 _ rfl,
   claim_C7_publish_rule_and_order.2.2 _ (by decide)⟩

lemma validateStatusTransition_to_archived_of_published (report : Report)
    (hpub : report.status = ReportStatus.published) :
    validateStatusTransition report ReportStatus.archived =
      if highPriorityCount report.entries < 3 then
        ⟨false, some (archiveErrorMessage (highPriorityCount report.entries)),
          some "INSUFFICIENT_HIGH_PRIORITY_ENTRIES"⟩
      else ⟨true, none, none⟩ := by
  unfold validateStatusTransition validateArchiveTransition validatePublishTransition
  by_cases hc : highPriorityCount report.entries < 3 <;> simp [hpub, hc]

/-- Claim C3: on an update request targeting status `archived` for a report
whose current status is `published` (with a matching caller version),
validation counts the high-priority entries of the candidate entries sequence
(the request's entries if present, else the stored ones); a count below 3
makes the update fail with `INSUFFICIENT_HIGH_PRIORITY_ENTRIES` carrying that
count in its message and leaves the store untouched, and a count of at least 3
passes the rule and lets the update succeed. -/
theorem claim_C3_archive_rule (store : EntityStore) (id : String)
    (body : UpdateBody) (now : Nat) (report : Report)
    (hget : store.getReport id = some report)
    (hpub : report.status = ReportStatus.published)
    (hstatus : body.status = some ReportStatus.archived)
    (hver : body.version = some report.version) :
    (highPriorityCount (body.entries.getD report.entries) < 3 →
      updateReport store id body now =
        (UpdateOutcome.businessRuleViolation "INSUFFICIENT_HIGH_PRIORITY_ENTRIES"
          (some (archiveErrorMessage
            (highPriorityCount (body.entries.getD report.entries))))
          report.status ReportStatus.archived,
         store)) ∧
    (3 ≤ highPriorityCount (body.entries.getD report.entries) →
      (validateStatusTransition
          { report with entries := body.entries.getD report.entries }
          ReportStatus.archived).valid = true ∧
      ∃ updated, (updateReport store id body now).1 = UpdateOutcome.ok updated) := by
  have hstat : ({ report with entries := body.entries.getD report.entries } : Report).status
      = ReportStatus.published := by simpa using hpub
  have hval := validateStatusTransition_to_archived_of_published
    { report with entries := body.entries.getD report.entries } hstat
  constructor
  · intro hcount
    rw [if_pos (by simpa using hcount)] at hval
    simp only [hpub] at hval
    simp only [updateReport, hver, hget, hstatus]
    simp [hpub, hval]
  · intro hcount
    rw [if_neg (by simpa using Nat.not_lt.mpr hcount)] at hval
    refine ⟨by simp [hval], ?_⟩
    simp only [hpub] at hval
    simp only [updateReport, hver, hget, hstatus]
    simp [hpub, hval]

/-- Entries of the concrete report used by the claim C3 witness: two
high-priority entries and one low-priority entry. -/
def c3StoredEntries : List ReportEntry :=
  [sampleEntry "e1" Priority.high, sampleEntry "e2" Priority.high,
   sampleEntry "e3" Priority.low]

/-- Candidate entries with exactly three high-priority entries. -/
def c3PassEntries : List ReportEntry :=
  [sampleEntry "e1" Priority.high, sampleEntry "e2" Priority.high,
   sampleEntry "e4" Priority.high]

/-- The concrete published report used by the claim C3 witness. -/
def c3Report : Report := sampleReport ReportStatus.published c3StoredEntries

/-- The concrete store used by the claim C3 witness. -/
def c3Store : EntityStore := [("r1", c3Report)]

/-- Witness for claim C3: archiving the published report with two
high-priority entries fails with the count 2 in the message and leaves the
store untouched; supplying three high-priority candidate entries passes the
rule (boundary: exactly 3) and the update succeeds. -/
theorem claim_C3_witness :
    (updateReport c3Store "r1"
        ⟨none, none, some ReportStatus.archived, none, none, some 1⟩ 7 =
      (UpdateOutcome.businessRuleViolation "INSUFFICIENT_HIGH_PRIORITY_ENTRIES"
        (some (archiveErrorMessage 2)) ReportStatus.published
        ReportStatus.archived, c3Store)) ∧
    ((validateStatusTransition { c3Report with entries := c3PassEntries }
        ReportStatus.archived).valid = true ∧
      ∃ updated,
        (updateReport c3Store "r1"
          ⟨none, none, some ReportStatus.archived, none, some c3PassEntries,
            some 1⟩ 7).1 = UpdateOutcome.ok updated) :=
  ⟨(claim_C3_archive_rule c3Store "r1"
      ⟨none, none, some ReportStatus.archived, none, none, some 1⟩ 7 c3Report
      rfl rfl rfl rfl).1 (by decide),
   (claim_C3_archive_rule c3Store "r1"
      ⟨none, none, some ReportStatus.archived, none, some c3PassEntries, some 1⟩
      7 c3Report rfl rfl rfl rfl).2 (by decide)⟩

/-- Claim C1: for every stored report, an update call supplying a caller
version different from the stored version returns a `Conflict` error carrying
both the stored and the supplied version, and the store — hence the stored
report and its version field — is left unchanged. -/
theorem claim_C1_version_mismatch_conflict (store : EntityStore) (id : String)
    (body : UpdateBody) (now : Nat) (report : Report) (callerVersion : Nat)
    (hget : store.getReport id = some report)
    (hver : body.version = some callerVersion)
    (hne : callerVersion ≠ report.version) :
    updateReport store id body now =
      (UpdateOutcome.conflict report.version callerVersion, store) := by
  have h : report.version ≠ callerVersion := fun e => hne e.symm
  simp [updateReport, hver, hget, h]

/-- Witness for claim C1: updating the stored version-1 report with caller
version 5 yields `Conflict` reporting stored version 1 and supplied version 5,
and the store is unchanged. -/
theorem claim_C1_witness :
    updateReport [("r1", sampleReport ReportStatus.draft [])] "r1"
        ⟨none, none, none, none, none, some 5⟩ 3 =
      (UpdateOutcome.conflict 1 5,
        [("r1", sampleReport ReportStatus.draft [])]) :=
  claim_C1_version_mismatch_conflict
    [("r1", sampleReport ReportStatus.draft [])] "r1"
    ⟨none, none, none, none, none, some 5⟩ 3
    (sampleReport ReportStatus.draft []) 5 rfl rfl (by decide)

/-- Counterexample for claim C6: the controller checks for a missing caller
version before looking the report up, so an update naming a nonexistent
report with no version supplied yields the `Validation` outcome, not
`NotFound` as the claim states. -/
theorem claim_C6_counterexample :
    (updateReport ([] : EntityStore) "missing"
        ⟨none, none, none, none, none, none⟩ 0).1 =
      UpdateOutcome.validationError
        "Version number is required for optimistic locking" ∧
    UpdateOutcome.validationError
        "Version number is required for optimistic locking" ≠
      UpdateOutcome.notFound := by
  exact ⟨rfl, by decide⟩

/-- Claim C6 as amended: the update operation first checks that a caller
version is present, failing `Validation` when it is absent, and only then
looks the report up, failing `NotFound` when it is absent; in particular an
update naming a nonexistent report with no version supplied fails
`Validation`. -/
theorem claim_C6_amended_order :
    (∀ (store : EntityStore) (id : String) (body : UpdateBody) (now : Nat),
      body.version = none →
      (updateReport store id body now).1 =
        UpdateOutcome.validationError
          "Version number is required for optimistic locking") ∧
    (∀ (store : EntityStore) (id : String) (body : UpdateBody) (now : Nat)
        (v : Nat),
      body.version = some v → store.getReport id = none →
      (updateReport store id body now).1 = UpdateOutcome.notFound) := by
  constructor
  · intro store id body now h
    simp [updateReport, h]
  · intro store id body now v hv hg
    simp [updateReport, hv, hg]

/-- Witness for the amended claim C6 on the empty store: a versionless update
fails `Validation`, a versioned update on a missing id fails `NotFound`. -/
theorem claim_C6_witness :
    (updateReport ([] : EntityStore) "r9"
        ⟨none, none, none, none, none, none⟩ 0).1 =
      UpdateOutcome.validationError
        "Version number is required for optimistic locking" ∧
    (updateReport ([] : EntityStore) "r9"
        ⟨none, none, none, none, none, some 1⟩ 0).1 =
      UpdateOutcome.notFound :=
  ⟨claim_C6_amended_order.1 ([] : EntityStore) "r9"
      ⟨none, none, none, none, none, none⟩ 0 rfl,
   claim_C6_amended_order.2 ([] : EntityStore) "r9"
      ⟨none, none, none, none, none, some 1⟩ 0 1 rfl rfl⟩

lemma getReport_setReport (store : EntityStore) (id : String) (rep : Report) :
    (store.setReport id rep).getReport id = some rep := by
  induction store with
  | nil => simp [EntityStore.setReport, EntityStore.getReport]
  | cons head tail ih =>
    obtain ⟨k, r⟩ := head
    by_cases hk : k = id
    · simp [EntityStore.setReport, EntityStore.getReport, hk]
    · simp only [EntityStore.setReport, EntityStore.getReport, hk, if_neg hk]
      exact ih

lemma hasReport_of_getReport (store : EntityStore) (id : String) (r : Report)
    (h : store.getReport id = some r) : store.hasReport id = true := by
  induction store with
  | nil => simp [EntityStore.getReport] at h
  | cons head tail ih =>
    obtain ⟨k, r2⟩ := head
    by_cases hk : k = id
    · simp [EntityStore.hasReport, hk]
    · simp only [EntityStore.getReport, EntityStore.hasReport, hk,
        if_neg hk] at h ⊢
      exact ih h

lemma getReport_updateReport_self (store : EntityStore) (id : String)
    (old rep : Report) (h : store.getReport id = some old) :
    (store.updateReport id rep).getReport id = some rep := by
  rw [EntityStore.updateReport, if_pos (hasReport_of_getReport store id old h)]
  exact getReport_setReport store id rep

lemma updateReport_characterize (store : EntityStore) (id : String)
    (body : UpdateBody) (now : Nat) :
    (∃ report, store.getReport id = some report ∧
      updateReport store id body now =
        (UpdateOutcome.ok (applyPatch report body now),
          store.updateReport id (applyPatch report body now))) ∨
    ((updateReport store id body now).2 = store ∧
      ∀ u : Report, (updateReport store id body now).1 ≠ UpdateOutcome.ok u) := by
  cases hv : body.version with
  | none =>
    right
    simp [updateReport, hv]
  | some v =>
    cases hg : store.getReport id with
    | none =>
      right
      simp [updateReport, hv, hg]
    | some report =>
      by_cases hne : report.version ≠ v
      · right
        simp [updateReport, hv, hg, hne]
      · cases hs : body.status with
        | none =>
          left
          exact ⟨report, rfl, by simp [updateReport, hv, hg, hne, hs]⟩
        | some s =>
          by_cases hss : s ≠ report.status
          · by_cases hvalid : (validateStatusTransition
                { report with entries := body.entries.getD report.entries }
                s).valid = true
            · left
              exact ⟨report, rfl,
                by simp [updateReport, hv, hg, hne, hs, hss, hvalid]⟩
            · right
              simp [updateReport, hv, hg, hne, hs, hss, hvalid]
          · left
            exact ⟨report, rfl, by simp [updateReport, hv, hg, hne, hs, hss]⟩

/-- The concrete draft report used for claim C2. -/
def c2Report : Report := sampleReport ReportStatus.draft []

/-- The concrete store used for claim C2. -/
def c2Store : EntityStore := [("r1", c2Report)]

/-- A concrete allowed upload used for claim C2. -/
def c2File : UploadedFile := ⟨"notes.txt", 10, "text/plain"⟩

/-- Counterexample for claim C2: uploading an attachment is a successful
mutation of the stored report (its attachments change and the new state is
persisted), yet the persisted version equals the old version instead of being
incremented — `uploadAttachment` bypasses the version discipline. -/
theorem claim_C2_counterexample :
    (uploadAttachment c2Store "r1" (some c2File) "f1" 9).1 =
      UploadOutcome.created "f1"
        { c2Report with attachments := ["f1"], updatedAt := 9 } ∧
    (uploadAttachment c2Store "r1" (some c2File) "f1" 9).2.getReport "r1" =
      some { c2Report with attachments := ["f1"], updatedAt := 9 } ∧
    ({ c2Report with attachments := ["f1"], updatedAt := 9 } : Report).version =
      c2Report.version ∧
    ({ c2Report with attachments := ["f1"], updatedAt := 9 } : Report).attachments ≠
      c2Report.attachments :=
  ⟨rfl, rfl, rfl, by decide⟩

/-- Claim C2 as amended: a successful `updateReport` increments the persisted
version by exactly 1, every `updateReport` call either persists such a
patched report or leaves the store unchanged (so every rejected mutation
leaves the version unchanged), but attachment upload mutates the stored
report without changing its version. -/
theorem claim_C2_amended_version_discipline :
    (∀ (store : EntityStore) (id : String) (body : UpdateBody) (now : Nat)
        (report u : Report),
      store.getReport id = some report →
      (updateReport store id body now).1 = UpdateOutcome.ok u →
      u.version = report.version + 1 ∧
      (updateReport store id body now).2.getReport id = some u) ∧
    (∀ (store : EntityStore) (id : String) (body : UpdateBody) (now : Nat),
      (∃ u : Report, (updateReport store id body now).1 = UpdateOutcome.ok u ∧
        (updateReport store id body now).2 = store.updateReport id u) ∨
      (updateReport store id body now).2 = store) ∧
    (∀ (store : EntityStore) (id : String) (file : Option UploadedFile)
        (fileId : String) (now : Nat) (report u : Report) (aid : String),
      store.getReport id = some report →
      (uploadAttachment store id file fileId now).1 =
        UploadOutcome.created aid u →
      u.version = report.version ∧
      (uploadAttachment store id file fileId now).2.getReport id = some u) := by
  refine ⟨?_, ?_, ?_⟩
  · intro store id body now report u hget hok
    rcases updateReport_characterize store id body now with
      ⟨r2, hg2, heq⟩ | ⟨hstore, hnok⟩
    · rw [hget] at hg2
      injection hg2 with hg2
      subst hg2
      rw [heq] at hok
      injection hok with hok
      subst hok
      refine ⟨rfl, ?_⟩
      rw [heq]
      exact getReport_updateReport_self store id report _ hget
    · exact absurd hok (hnok u)
  · intro store id body now
    rcases updateReport_characterize store id body now with
      ⟨r2, hg2, heq⟩ | ⟨hstore, hnok⟩
    · left
      exact ⟨applyPatch r2 body now, by rw [heq], by rw [heq]⟩
    · right
      exact hstore
  · intro store id file fileId now report u aid hget hok
    cases file with
    | none => simp [uploadAttachment] at hok
    | some f =>
      by_cases ht : validateFileType f.mimetype = true
      · by_cases hsz : validateFileSize f.size = true
        · have heq : uploadAttachment store id (some f) fileId now =
              (UploadOutcome.created fileId (attachReport report fileId now),
                store.updateReport id (attachReport report fileId now)) := by
            simp [uploadAttachment, hget, ht, hsz]
          rw [heq] at hok
          injection hok with haid hu
          subst hu
          refine ⟨rfl, ?_⟩
          rw [heq]
          exact getReport_updateReport_self store id report _ hget
        · simp only [Bool.not_eq_true] at hsz
          simp [uploadAttachment, hget, ht, hsz] at hok
      · simp only [Bool.not_eq_true] at ht
        simp [uploadAttachment, hget, ht] at hok

/-- Witness for the amended claim C2: a successful title update of the stored
version-1 report persists version 2; and a successful upload persists the
report with a new attachment but still version 1. -/
theorem claim_C2_witness :
    ((applyPatch c2Report ⟨some "New", none, none, none, none, some 1⟩ 3).version =
        c2Report.version + 1 ∧
      (updateReport c2Store "r1"
          ⟨some "New", none, none, none, none, some 1⟩ 3).2.getReport "r1" =
        some (applyPatch c2Report ⟨some "New", none, none, none, none, some 1⟩ 3)) ∧
    ((attachReport c2Report "f1" 9).version = c2Report.version ∧
      (uploadAttachment c2Store "r1" (some c2File) "f1" 9).2.getReport "r1" =
        some (attachReport c2Report "f1" 9)) :=
  ⟨claim_C2_amended_version_discipline.1 c2Store "r1"
      ⟨some "New", none, none, none, none, some 1⟩ 3 c2Report
      (applyPatch c2Report ⟨some "New", none, none, none, none, some 1⟩ 3)
      rfl rfl,
   claim_C2_amended_version_discipline.2.2 c2Store "r1" (some c2File) "f1" 9
      c2Report (attachReport c2Report "f1" 9) "f1" rfl rfl⟩

/-- Claim C9: every successful report creation enqueues exactly three tasks —
one notification, one cache invalidation, one preview generation — each in
`PENDING` status, seeded with `attempts = 0` and kind-specific `maxAttempts`
of 3, 2 and 3 respectively. -/
theorem claim_C9_three_tasks_enqueued (store : EntityStore)
    (qs : AsyncTaskQueue.QueueState) (body : CreateBody)
    (newId userId username : String) (now : Nat)
    (htitle : isFalsyString body.title = false)
    (hdesc : isFalsyString body.description = false) :
    ∃ (notifyTask cacheTask previewTask : AsyncTaskQueue.Task) (report : Report),
      createReport store qs body newId userId username now =
        (CreateOutcome.created report, store.createReport report,
          { qs with queue := qs.queue ++ [notifyTask, cacheTask, previewTask] }) ∧
      notifyTask.type = AsyncTaskQueue.TaskType.SEND_NOTIFICATION ∧
      cacheTask.type = AsyncTaskQueue.TaskType.INVALIDATE_CACHE ∧
      previewTask.type = AsyncTaskQueue.TaskType.GENERATE_PREVIEW ∧
      notifyTask.status = AsyncTaskQueue.TaskStatus.PENDING ∧
      cacheTask.status = AsyncTaskQueue.TaskStatus.PENDING ∧
      previewTask.status = AsyncTaskQueue.TaskStatus.PENDING ∧
      notifyTask.attempts = 0 ∧ cacheTask.attempts = 0 ∧
      previewTask.attempts = 0 ∧
      notifyTask.maxAttempts = 3 ∧ cacheTask.maxAttempts = 2 ∧
      previewTask.maxAttempts = 3 := by
  refine ⟨⟨newId ++ "-notification", AsyncTaskQueue.TaskType.SEND_NOTIFICATION,
      AsyncTaskQueue.TaskPayload.notification newId (body.title.getD "") username
        ["manager@company.com", "team@company.com"],
      AsyncTaskQueue.TaskStatus.PENDING, 0, 3, now, none, none⟩,
    ⟨newId ++ "-cache", AsyncTaskQueue.TaskType.INVALIDATE_CACHE,
      AsyncTaskQueue.TaskPayload.cache
        ("reports:" ++ (body.metadata.getD
          ⟨"General", ConfidentialityLevel.internalLevel, 0, none, none⟩).department)
        newId,
      AsyncTaskQueue.TaskStatus.PENDING, 0, 2, now, none, none⟩,
    ⟨newId ++ "-preview", AsyncTaskQueue.TaskType.GENERATE_PREVIEW,
      AsyncTaskQueue.TaskPayload.preview newId (body.title.getD ""),
      AsyncTaskQueue.TaskStatus.PENDING, 0, 3, now, none, none⟩,
    ⟨newId, body.title.getD "", body.description.getD "", ReportStatus.draft,
      userId, now, now, 1, [],
      body.metadata.getD ⟨"General", ConfidentialityLevel.internalLevel, 0, none, none⟩,
      []⟩,
    ?_, rfl, rfl, rfl, rfl, rfl, rfl, rfl, rfl, rfl, rfl, rfl, rfl⟩
  simp [createReport, AsyncTaskQueue.enqueue, htitle, hdesc]

/-- Witness for claim C9 on a concrete creation against the empty store and
an idle queue. -/
theorem claim_C9_witness :
    ∃ (notifyTask cacheTask previewTask : AsyncTaskQueue.Task) (report : Report),
      createReport ([] : EntityStore) ⟨[], [], false, []⟩
          ⟨some "T", some "D", none⟩ "rep1" "u1" "alice" 5 =
        (CreateOutcome.created report, EntityStore.createReport [] report,
          ⟨[notifyTask, cacheTask, previewTask], [], false, []⟩) ∧
      notifyTask.type = AsyncTaskQueue.TaskType.SEND_NOTIFICATION ∧
      cacheTask.type = AsyncTaskQueue.TaskType.INVALIDATE_CACHE ∧
      previewTask.type = AsyncTaskQueue.TaskType.GENERATE_PREVIEW ∧
      notifyTask.status = AsyncTaskQueue.TaskStatus.PENDING ∧
      cacheTask.status = AsyncTaskQueue.TaskStatus.PENDING ∧
      previewTask.status = AsyncTaskQueue.TaskStatus.PENDING ∧
      notifyTask.attempts = 0 ∧ cacheTask.attempts = 0 ∧
      previewTask.attempts = 0 ∧
      notifyTask.maxAttempts = 3 ∧ cacheTask.maxAttempts = 2 ∧
      previewTask.maxAttempts = 3 :=
  claim_C9_three_tasks_enqueued ([] : EntityStore) ⟨[], [], false, []⟩
    ⟨some "T", some "D", none⟩ "rep1" "u1" "alice" 5 rfl rfl

/-- Claim C5: when an attempt fails and the incremented attempt counter is
still below `maxAttempts`, the task is marked `FAILED`, the scheduled backoff
delay is `2^attempts * 1000` milliseconds — that is, `2^attempts` seconds with
`attempts` the counter after incrementing for the failed attempt — and when
that timer fires the task is reinserted at the head of the pending sequence,
not the tail. -/
theorem claim_C5_backoff_and_head_reinsertion
    (st : AsyncTaskQueue.QueueState) (task : AsyncTaskQueue.Task)
    (rest : List AsyncTaskQueue.Task) (now : Nat) (errMsg : String)
    (hqueue : st.queue = task :: rest)
    (htimers : st.timers = [])
    (hretry : task.attempts + 1 < task.maxAttempts) :
    AsyncTaskQueue.processOne st now true errMsg =
      { st with
        queue := rest
        processing := true
        timers := [(2 ^ (task.attempts + 1) * 1000,
          { task with
            attempts := task.attempts + 1
            status := AsyncTaskQueue.TaskStatus.FAILED
            error := some errMsg })] } ∧
    AsyncTaskQueue.fireTimers (AsyncTaskQueue.processOne st now true errMsg) =
      { st with
        queue :=
          { task with
            attempts := task.attempts + 1
            status := AsyncTaskQueue.TaskStatus.FAILED
            error := some errMsg } :: rest
        processing := true
        timers := [] } := by
  have hnle : ¬ task.maxAttempts ≤ task.attempts + 1 := Nat.not_le.mpr hretry
  constructor
  · simp [AsyncTaskQueue.processOne, hqueue, htimers, hnle]
  · simp [AsyncTaskQueue.processOne, AsyncTaskQueue.fireTimers, hqueue, htimers,
      hnle]

/-- The concrete pending notification task used by queue witnesses. -/
def c5Task : AsyncTaskQueue.Task :=
  ⟨"t5", AsyncTaskQueue.TaskType.SEND_NOTIFICATION,
    AsyncTaskQueue.TaskPayload.notification "r1" "Title" "alice" [],
    AsyncTaskQueue.TaskStatus.PENDING, 0, 3, 0, none, none⟩

/-- Witness for claim C5: the fresh task (attempts 0, maxAttempts 3) fails its
first attempt, a 2000 ms (= 2^1 seconds) timer is scheduled for the FAILED
task, and firing it puts the task back at the head of the queue. -/
theorem claim_C5_witness :
    AsyncTaskQueue.processOne ⟨[c5Task], [], false, []⟩ 8 true "boom" =
      ⟨[], [], true,
        [(2000, ⟨"t5", AsyncTaskQueue.TaskType.SEND_NOTIFICATION,
          AsyncTaskQueue.TaskPayload.notification "r1" "Title" "alice" [],
          AsyncTaskQueue.TaskStatus.FAILED, 1, 3, 0, none, some "boom"⟩)]⟩ ∧
    AsyncTaskQueue.fireTimers
        (AsyncTaskQueue.processOne ⟨[c5Task], [], false, []⟩ 8 true "boom") =
      ⟨[⟨"t5", AsyncTaskQueue.TaskType.SEND_NOTIFICATION,
          AsyncTaskQueue.TaskPayload.notification "r1" "Title" "alice" [],
          AsyncTaskQueue.TaskStatus.FAILED, 1, 3, 0, none, some "boom"⟩],
        [], true, []⟩ :=
  claim_C5_backoff_and_head_reinsertion ⟨[c5Task], [], false, []⟩ c5Task [] 8
    "boom" rfl rfl (by decide)

lemma failRound_retry (now : Nat) (errMsg : String) (t : AsyncTaskQueue.Task)
    (d : List AsyncTaskQueue.Task) (b : Bool)
    (h : t.attempts + 1 < t.maxAttempts) :
    AsyncTaskQueue.failRound now errMsg ⟨[t], d, b, []⟩ =
      ⟨[{ t with
          attempts := t.attempts + 1
          status := AsyncTaskQueue.TaskStatus.FAILED
          error := some errMsg }], d, true, []⟩ := by
  have hnle : ¬ t.maxAttempts ≤ t.attempts + 1 := Nat.not_le.mpr h
  simp [AsyncTaskQueue.failRound, AsyncTaskQueue.processOne,
    AsyncTaskQueue.fireTimers, hnle]

lemma failRound_dead (now : Nat) (errMsg : String) (t : AsyncTaskQueue.Task)
    (d : List AsyncTaskQueue.Task) (b : Bool)
    (h : t.maxAttempts ≤ t.attempts + 1) :
    AsyncTaskQueue.failRound now errMsg ⟨[t], d, b, []⟩ =
      ⟨[], d ++ [{ t with
          attempts := t.attempts + 1
          status := AsyncTaskQueue.TaskStatus.DEAD_LETTER
          error := some errMsg }], true, []⟩ := by
  simp [AsyncTaskQueue.failRound, AsyncTaskQueue.processOne,
    AsyncTaskQueue.fireTimers, h]

lemma failRound_iterate_dead (now : Nat) (errMsg : String) :
    ∀ (k : Nat) (t : AsyncTaskQueue.Task) (d : List AsyncTaskQueue.Task)
      (b : Bool), 0 < k → t.attempts + k = t.maxAttempts →
      (AsyncTaskQueue.failRound now errMsg)^[k] ⟨[t], d, b, []⟩ =
        ⟨[], d ++ [{ t with
            attempts := t.maxAttempts
            status := AsyncTaskQueue.TaskStatus.DEAD_LETTER
            error := some errMsg }], true, []⟩ := by
  intro k
  induction k with
  | zero => intro t d b hpos _; omega
  | succ n ih =>
    intro t d b _ heq
    rw [Function.iterate_succ_apply]
    by_cases hn : n = 0
    · subst hn
      have hle : t.maxAttempts ≤ t.attempts + 1 := by omega
      rw [failRound_dead now errMsg t d b hle]
      have h1 : t.attempts + 1 = t.maxAttempts := by omega
      simp [h1]
    · have hlt : t.attempts + 1 < t.maxAttempts := by omega
      rw [failRound_retry now errMsg t d b hlt]
      have hstep := ih
        { t with
          attempts := t.attempts + 1
          status := AsyncTaskQueue.TaskStatus.FAILED
          error := some errMsg } d true (by omega)
        (by show t.attempts + 1 + n = t.maxAttempts; omega)
      rw [hstep]

lemma failRound_iterate_live (now : Nat) (errMsg : String) :
    ∀ (k : Nat) (t : AsyncTaskQueue.Task) (d : List AsyncTaskQueue.Task)
      (b : Bool), t.attempts + k < t.maxAttempts →
      ∃ (t2 : AsyncTaskQueue.Task) (b2 : Bool),
        (AsyncTaskQueue.failRound now errMsg)^[k] ⟨[t], d, b, []⟩ =
          ⟨[t2], d, b2, []⟩ := by
  intro k
  induction k with
  | zero => intro t d b _; exact ⟨t, b, rfl⟩
  | succ n ih =>
    intro t d b hlt
    rw [Function.iterate_succ_apply]
    rw [failRound_retry now errMsg t d b (by omega)]
    exact ih _ d true (by show t.attempts + 1 + n < t.maxAttempts; omega)

/-- Claim C4: a task whose handler fails on every attempt reaches
`DEAD_LETTER` after exactly `maxAttempts` attempts — not before — is moved to
the separate dead-letter collection, and is never retried afterward: the
settled engine state is inert (a further processing step only clears the
`processing` flag and timer elapse changes nothing), so the dead-lettered
task undergoes no further status change. -/
theorem claim_C4_dead_letter_after_max_attempts (t : AsyncTaskQueue.Task)
    (m : Nat) (now : Nat) (errMsg : String)
    (hattempts : t.attempts = 0) (hmax : t.maxAttempts = m) (hpos : 1 ≤ m) :
    ((AsyncTaskQueue.failRound now errMsg)^[m] ⟨[t], [], false, []⟩ =
      ⟨[], [{ t with
          attempts := m
          status := AsyncTaskQueue.TaskStatus.DEAD_LETTER
          error := some errMsg }], true, []⟩) ∧
    (∀ k, k < m →
      ((AsyncTaskQueue.failRound now errMsg)^[k]
          ⟨[t], [], false, []⟩).deadLetterQueue = []) ∧
    (∀ (now2 : Nat) (fails : Bool) (msg2 : String),
      AsyncTaskQueue.processOne
          ((AsyncTaskQueue.failRound now errMsg)^[m] ⟨[t], [], false, []⟩)
          now2 fails msg2 =
        { (AsyncTaskQueue.failRound now errMsg)^[m] ⟨[t], [], false, []⟩ with
          processing := false } ∧
      AsyncTaskQueue.fireTimers
          ((AsyncTaskQueue.failRound now errMsg)^[m] ⟨[t], [], false, []⟩) =
        (AsyncTaskQueue.failRound now errMsg)^[m] ⟨[t], [], false, []⟩) := by
  have hdead := failRound_iterate_dead now errMsg m t [] false (by omega)
    (by omega)
  refine ⟨?_, ?_, ?_⟩
  · rw [hdead]
    simp [hmax]
  · intro k hk
    obtain ⟨t2, b2, heq⟩ := failRound_iterate_live now errMsg k t [] false
      (by omega)
    rw [heq]
  · intro now2 fails msg2
    rw [hdead]
    exact ⟨rfl, rfl⟩

/-- The concrete cache-invalidation task (maxAttempts 2) used by the claim C4
witness. -/
def c4Task : AsyncTaskQueue.Task :=
  ⟨"t4", AsyncTaskQueue.TaskType.INVALIDATE_CACHE,
    AsyncTaskQueue.TaskPayload.cache "reports:General" "r1",
    AsyncTaskQueue.TaskStatus.PENDING, 0, 2, 0, none, none⟩

/-- Witness for claim C4: the always-failing maxAttempts-2 task is not
dead-lettered after one round but is dead-lettered with `attempts = 2` after
two rounds, and the settled state is inert. -/
theorem claim_C4_witness :
    ((AsyncTaskQueue.failRound 0 "boom")^[2] ⟨[c4Task], [], false, []⟩ =
      ⟨[], [⟨"t4", AsyncTaskQueue.TaskType.INVALIDATE_CACHE,
          AsyncTaskQueue.TaskPayload.cache "reports:General" "r1",
          AsyncTaskQueue.TaskStatus.DEAD_LETTER, 2, 2, 0, none, some "boom"⟩],
        true, []⟩) ∧
    ((AsyncTaskQueue.failRound 0 "boom")^[1]
        ⟨[c4Task], [], false, []⟩).deadLetterQueue = [] ∧
    AsyncTaskQueue.processOne
        ((AsyncTaskQueue.failRound 0 "boom")^[2] ⟨[c4Task], [], false, []⟩)
        9 true "again" =
      { (AsyncTaskQueue.failRound 0 "boom")^[2] ⟨[c4Task], [], false, []⟩ with
        processing := false } :=
  ⟨(claim_C4_dead_letter_after_max_attempts c4Task 2 0 "boom" rfl rfl
      (by decide)).1,
   (claim_C4_dead_letter_after_max_attempts c4Task 2 0 "boom" rfl rfl
      (by decide)).2.1 1 (by decide),
   ((claim_C4_dead_letter_after_max_attempts c4Task 2 0 "boom" rfl rfl
      (by decide)).2.2 9 true "again").1⟩

/-- The concrete pending task used by claim C8. -/
def c8Task : AsyncTaskQueue.Task :=
  ⟨"task1", AsyncTaskQueue.TaskType.GENERATE_PREVIEW,
    AsyncTaskQueue.TaskPayload.preview "r1" "Title",
    AsyncTaskQueue.TaskStatus.PENDING, 0, 3, 0, none, none⟩

/-- Counterexample for claim C8: after a task completes successfully, the
engine retains it in no collection — the pending queue, the dead-letter queue
and the timer list are all empty, and the inspection surface (`getStatus`,
`getDeadLetterQueue`) shows nothing — so completed tasks do not persist in
the system for inspection. -/
theorem claim_C8_counterexample :
    AsyncTaskQueue.processOne ⟨[c8Task], [], false, []⟩ 4 false "" =
      ⟨[], [], true, []⟩ ∧
    AsyncTaskQueue.getStatus
        (AsyncTaskQueue.processOne ⟨[c8Task], [], false, []⟩ 4 false "") =
      ⟨0, true, 0⟩ ∧
    AsyncTaskQueue.getDeadLetterQueue
        (AsyncTaskQueue.processOne ⟨[c8Task], [], false, []⟩ 4 false "") =
      [] :=
  ⟨rfl, rfl, rfl⟩

/-- Claim C8 as amended: dead-lettered tasks persist — no engine step ever
removes or modifies an entry of the dead-letter collection, it only grows —
but a successfully completed task is dropped from the engine's collections and
is not retained for inspection. -/
theorem claim_C8_amended_dead_letter_persistence :
    (∀ (st : AsyncTaskQueue.QueueState) (now : Nat) (fails : Bool)
        (msg : String),
      ∃ tail, (AsyncTaskQueue.processOne st now fails msg).deadLetterQueue =
        st.deadLetterQueue ++ tail) ∧
    (∀ st : AsyncTaskQueue.QueueState,
      (AsyncTaskQueue.fireTimers st).deadLetterQueue = st.deadLetterQueue) ∧
    (∀ (st : AsyncTaskQueue.QueueState) (task : AsyncTaskQueue.Task)
        (rest : List AsyncTaskQueue.Task) (now : Nat) (msg : String),
      st.queue = task :: rest →
      AsyncTaskQueue.processOne st now false msg =
        { st with queue := rest, processing := true }) := by
  refine ⟨?_, ?_, ?_⟩
  · intro st now fails msg
    cases hq : st.queue with
    | nil => exact ⟨[], by simp [AsyncTaskQueue.processOne, hq]⟩
    | cons task rest =>
      cases fails with
      | false => exact ⟨[], by simp [AsyncTaskQueue.processOne, hq]⟩
      | true =>
        by_cases hm : task.maxAttempts ≤ task.attempts + 1
        · exact ⟨[{ task with
              attempts := task.attempts + 1
              status := AsyncTaskQueue.TaskStatus.DEAD_LETTER
              error := some msg }],
            by simp [AsyncTaskQueue.processOne, hq, hm]⟩
        · exact ⟨[], by simp [AsyncTaskQueue.processOne, hq, hm]⟩
  · intro st
    simp [AsyncTaskQueue.fireTimers]
  · intro st task rest now msg hq
    simp [AsyncTaskQueue.processOne, hq]

/-- Witness for the amended claim C8: completing the concrete pending task
leaves an engine state with empty queue and unchanged (empty) dead-letter
collection. -/
theorem claim_C8_witness :
    AsyncTaskQueue.processOne ⟨[c8Task], [], true, []⟩ 4 false "" =
      ⟨[], [], true, []⟩ :=
  claim_C8_amended_dead_letter_persistence.2.2 ⟨[c8Task], [], true, []⟩ c8Task
    [] 4 "" rfl
